import Mathlib

/-!
# Verification development for `scripts/verify_repos.py`

A shallow embedding of the repository-verification pipeline: the repo-list
reader, slug normalization, convention checks (pyproject / README), the
isolated install phase, the per-repository orchestrator, badge emission and
the aggregate results payload.  External subprocesses (git, venv, pip) are
modelled by their observable outcomes (`CmdResult`), the fetched working
tree by a root-level file map (`RepoTree`).
-/

namespace VerifyRepos

/-- Outcome of one external command, as `run` returns it:
`(proc.returncode, proc.stdout, proc.stderr)`. -/
structure CmdResult where
  code : Int
  out : String
  err : String
deriving Repr, DecidableEq

/-- Python's `err.strip() or out.strip()`: the stripped stderr when it is
non-empty, the stripped stdout otherwise. -/
def diag (r : CmdResult) : String :=
  if r.err.trim ≠ "" then r.err.trim else r.out.trim

/-- The fetched working tree: the files present at the repository root,
as `(name, contents)` pairs. -/
structure RepoTree where
  files : List (String × String)
deriving Repr, DecidableEq

/-- Test `(repo_dir / name).exists()` for a root-level file. -/
def hasFile (t : RepoTree) (name : String) : Bool :=
  t.files.any (fun f => f.1 == name)

/-- Read `(repo_dir / name).read_text()` for a root-level file. -/
def lookupFile (t : RepoTree) (name : String) : Option String :=
  (t.files.find? (fun f => f.1 == name)).map (fun f => f.2)

/-- The `RepoResult` dataclass. -/
structure RepoResult where
  url : String
  ok : Bool
  reason : String
  badge_path : Option String := none
deriving Repr, DecidableEq

/-- All the externally determined facts one repository's verification
attempt can observe: the clone outcome, the fetched tree, and the outcomes
of the venv/pip subprocesses (consulted only if reached). `readmeExc` and
`installExc` model the exceptions the two `try`/`except` blocks in
`verify_repo` can catch. -/
structure RepoEnv where
  clone : CmdResult
  tree : RepoTree
  readmeExc : Option String := none
  venvCmd : CmdResult
  pipUpgrade : CmdResult
  reqInstall : CmdResult
  editable : CmdResult
  installExc : Option String := none
deriving Repr, DecidableEq

/-- The observable steps of one verification attempt, in the order they are
performed; used to state short-circuiting claims. -/
inductive Ev
  | clone
  | checkPyproject
  | checkReadme
  | venvCreate
  | pipUpgradeEv
  | reqInstallEv
  | editableEv
  | badgeWriteEv
deriving Repr, DecidableEq

/-! ## read_repo_list -/

/-- Model of `read_repo_list`: the file is modelled as its list of lines
(`splitlines`); the loop strips each line and keeps it unless it is empty
or starts with `#`. -/
def read_repo_list (lines : List String) : List String :=
  lines.foldl
    (fun repos line =>
      if line.trim.isEmpty || line.trim.startsWith "#" then repos
      else repos ++ [line.trim])
    []

/-! ## normalize_repo_slug

`re.search(r"github\.com/([^/]+)/([^/]+?)(?:\.git)?$", url)` scans for the
leftmost occurrence of the literal `github.com/` after which the rest of
the string is `owner/ tail` with both parts non-empty and slash-free (the
pattern is anchored at `$`); the lazy `([^/]+?)(?:\.git)?$` strips one
trailing `.git` from the tail whenever what remains is non-empty.
On no match, `re.sub(r"[^A-Za-z0-9._-]+", "_", url)` replaces each maximal
run of disallowed characters by a single underscore. -/

/-- The character class `[A-Za-z0-9._-]` of the substitution regex. -/
def isAllowed (c : Char) : Bool :=
  c.isUpper || c.isLower || c.isDigit || c == '.' || c == '_' || c == '-'

/-- Model of `re.sub(r"[^A-Za-z0-9._-]+", "_", url)`: each maximal run of
disallowed characters becomes one `_`. -/
def subRuns : List Char → List Char
  | [] => []
  | c :: cs =>
    if isAllowed c then c :: subRuns cs
    else '_' :: subRuns (cs.dropWhile (fun d => !(isAllowed d)))
termination_by l => l.length
decreasing_by
  · simp
  · have h := (List.dropWhile_suffix (l := cs)
      (fun d => !(isAllowed d))).length_le
    simp
    omega

/-- The literal `github.com/` that heads the recognition regex. -/
def ghPat : List Char :=
  ['g', 'i', 't', 'h', 'u', 'b', '.', 'c', 'o', 'm', '/']

/-- The lazy `([^/]+?)(?:\.git)?$` group: one trailing `.git` is stripped
from the tail when a non-empty repo name remains. -/
def stripGit (tail : List Char) : List Char :=
  if 4 < tail.length ∧ tail.drop (tail.length - 4) = ['.', 'g', 'i', 't']
  then tail.take (tail.length - 4)
  else tail

/-- One attempted match of the recognition regex at the head of `l`:
`github.com/` must be a prefix and the remainder must split as
`owner / tail` with both parts non-empty and slash-free. -/
def tryAt (l : List Char) : Option (List Char × List Char) :=
  if ghPat.isPrefixOf l then
    let rest := l.drop 11
    let owner := rest.takeWhile (fun c => c ≠ '/')
    match rest.dropWhile (fun c => c ≠ '/') with
    | [] => none
    | _ :: tail =>
      if owner ≠ [] ∧ tail ≠ [] ∧ '/' ∉ tail then
        some (owner, stripGit tail)
      else none
  else none

/-- Model of `re.search`: the leftmost position at which the pattern matches. -/
def findMatch : List Char → Option (List Char × List Char)
  | [] => none
  | c :: cs =>
    match tryAt (c :: cs) with
    | some r => some r
    | none => findMatch cs

/-- Model of `normalize_repo_slug`. -/
def normalize_repo_slug (url : String) : String :=
  match findMatch url.toList with
  | none => String.mk (subRuns url.toList)
  | some (owner, repo) => String.mk owner ++ "__" ++ String.mk repo

/-- The badge file name `f"{slug}.json"`. -/
def slugFile (url : String) : String :=
  normalize_repo_slug url ++ ".json"

/-! ## Convention checks -/

/-- Python's `needle in hay` on strings, as character lists. -/
def listInfix (needle : List Char) : List Char → Bool
  | [] => needle.isEmpty
  | c :: t => needle.isPrefixOf (c :: t) || listInfix needle t

/-- Python's `needle in hay` substring test. -/
def containsSub (needle hay : String) : Bool :=
  listInfix needle.toList hay.toList

/-- Python's `text.lower()`, character by character. -/
def strLower (s : String) : String :=
  String.mk (s.toList.map Char.toLower)

/-- Model of `ensure_readme`: `.error` models an exception escaping the function
(caught by the `try` in `verify_repo`); otherwise the `(bool, reason)`
pair the Python function returns. -/
def ensure_readme (t : RepoTree) (exc : Option String) :
    Except String (Bool × String) :=
  match lookupFile t "README.md" with
  | none => .ok (false, "missing README.md")
  | some text =>
    match exc with
    | some e => .error e
    | none =>
      let lower := strLower text
      if !(containsSub "install" lower) || !(containsSub "usage" lower) then
        .ok (false, "README.md must include install and usage")
      else
        .ok (true, "")

/-- Model of `ensure_pyproject`. -/
def ensure_pyproject (t : RepoTree) : Bool × String :=
  if !(hasFile t "pyproject.toml") then (false, "missing pyproject.toml")
  else (true, "")

/-! ## Isolated install phase -/

/-- Model of `create_venv`. -/
def create_venv (c : CmdResult) : Bool × String :=
  if c.code ≠ 0 then (false, "venv creation failed: " ++ diag c)
  else (true, "")

/-- Model of `install_editable`: pip upgrade, then the requirements install when
`requirements.txt` exists at the root, then the editable install; paired
with the steps actually performed. -/
def install_editable (env : RepoEnv) : (Bool × String) × List Ev :=
  if env.pipUpgrade.code ≠ 0 then
    ((false, "pip upgrade failed: " ++ diag env.pipUpgrade), [.pipUpgradeEv])
  else if hasFile env.tree "requirements.txt" then
    if env.reqInstall.code ≠ 0 then
      ((false, "requirements install failed: " ++ diag env.reqInstall),
        [.pipUpgradeEv, .reqInstallEv])
    else if env.editable.code ≠ 0 then
      ((false, "pip install -e . failed: " ++ diag env.editable),
        [.pipUpgradeEv, .reqInstallEv, .editableEv])
    else ((true, ""), [.pipUpgradeEv, .reqInstallEv, .editableEv])
  else if env.editable.code ≠ 0 then
    ((false, "pip install -e . failed: " ++ diag env.editable),
      [.pipUpgradeEv, .editableEv])
  else ((true, ""), [.pipUpgradeEv, .editableEv])

/-- The whole install phase as `verify_repo` sequences it: environment
creation first, then `install_editable`. -/
def installPhase (env : RepoEnv) : (Bool × String) × List Ev :=
  let v := create_venv env.venvCmd
  if !v.1 then (v, [.venvCreate])
  else
    let r := install_editable env
    (r.1, .venvCreate :: r.2)

/-! ## Badge emission -/

/-- The JSON payload `write_badge` serializes. -/
structure BadgePayload where
  schemaVersion : Nat
  label : String
  message : String
  color : String
deriving Repr, DecidableEq

/-- The payload written for outcome `ok`. -/
def badgePayload (ok : Bool) : BadgePayload :=
  { schemaVersion := 1
    label := "package"
    message := if ok then "verified" else "failed"
    color := if ok then "brightgreen" else "red" }

/-- Model of `write_badge`: the file written into the badge directory, as its name
`f"{slug}.json"` together with its content. -/
def write_badge (url : String) (ok : Bool) : String × BadgePayload :=
  (slugFile url, badgePayload ok)

/-- The badge directory as a key-value store from file name to content. -/
def BadgeStore := String → Option BadgePayload

/-- Model of `badge_path.write_text(...)`: overwrites whatever the store held. -/
def applyWrite (s : BadgeStore) (w : String × BadgePayload) : BadgeStore :=
  fun k => if k = w.1 then some w.2 else s k

/-- Apply a chronological list of badge-file writes. -/
def applyWrites (s : BadgeStore) (ws : List (String × BadgePayload)) :
    BadgeStore :=
  ws.foldl applyWrite s

/-! ## verify_repo and main -/

/-- What one call of `verify_repo` produces: its `RepoResult`, the steps it
performed in order, and the badge files it wrote. -/
structure VerifyOut where
  result : RepoResult
  events : List Ev
  writes : List (String × BadgePayload)
deriving Repr, DecidableEq

/-- `verify_repo`: clone, manifest check, README check, venv creation,
install phase, badge write — each failure returning immediately. -/
def verify_repo (url : String) (env : RepoEnv) : VerifyOut :=
  if env.clone.code ≠ 0 then
    ⟨⟨url, false, "git clone failed: " ++ diag env.clone, none⟩, [.clone], []⟩
  else
    let p := ensure_pyproject env.tree
    if !p.1 then
      ⟨⟨url, false, p.2, none⟩, [.clone, .checkPyproject], []⟩
    else
      match ensure_readme env.tree env.readmeExc with
      | .error e =>
        ⟨⟨url, false, "README check error: " ++ e, none⟩,
          [.clone, .checkPyproject, .checkReadme], []⟩
      | .ok r =>
        if !r.1 then
          ⟨⟨url, false, r.2, none⟩,
            [.clone, .checkPyproject, .checkReadme], []⟩
        else
          let v := create_venv env.venvCmd
          if !v.1 then
            ⟨⟨url, false, v.2, none⟩,
              [.clone, .checkPyproject, .checkReadme, .venvCreate], []⟩
          else
            match env.installExc with
            | some e =>
              ⟨⟨url, false, "pip install error: " ++ e, none⟩,
                [.clone, .checkPyproject, .checkReadme, .venvCreate], []⟩
            | none =>
              let inst := install_editable env
              if !inst.1.1 then
                ⟨⟨url, false, inst.1.2, none⟩,
                  [.clone, .checkPyproject, .checkReadme, .venvCreate]
                    ++ inst.2, []⟩
              else
                ⟨⟨url, true, "ok", some (slugFile url)⟩,
                  [.clone, .checkPyproject, .checkReadme, .venvCreate]
                    ++ inst.2 ++ [.badgeWriteEv],
                  [write_badge url true]⟩

/-- One iteration of `main`'s loop: run `verify_repo`; when the result is
not ok, `main` writes the "failed" badge. The second component collects
the badge files written during this iteration, in order. -/
def mainStep (url : String) (env : RepoEnv) :
    RepoResult × List (String × BadgePayload) :=
  let out := verify_repo url env
  (out.result, out.writes ++ if out.result.ok then [] else [write_badge url false])

/-- Model of `main`'s loop over the repo list: the collected results and the
chronological badge writes. -/
def processRepos (input : List (String × RepoEnv)) :
    List RepoResult × List (String × BadgePayload) :=
  input.foldl
    (fun acc ue =>
      let s := mainStep ue.1 ue.2
      (acc.1 ++ [s.1], acc.2 ++ s.2))
    ([], [])

/-- The aggregate results payload (`generated_at` aside). -/
structure Payload where
  total : Nat
  passed : Nat
  failed : List (String × String)
deriving Repr, DecidableEq

/-- The `payload` dict `main` builds:
`total = len(results)`, `passed = sum(1 for r in results if r.ok)`,
`failed = [{url, reason} for r in results if not r.ok]`. -/
def resultsPayload (results : List RepoResult) : Payload :=
  { total := results.length
    passed := results.countP (fun r => r.ok)
    failed := (results.filter (fun r => !r.ok)).map (fun r => (r.url, r.reason)) }

/-- Model of `return 0 if all(r.ok for r in results) else 1`. -/
def mainExit (results : List RepoResult) : Nat :=
  if results.all (fun r => r.ok) then 0 else 1

/-! ## Spec-side reference definitions

These transcribe the *specification's words* (not the code) and exist only
to be compared with the code-derived definitions above. -/

/-- The fallback normalization as the claim words it: one replacement
character per disallowed input character. -/
def perCharFallback (s : String) : String :=
  String.mk (s.toList.map (fun c => if isAllowed c then c else '_'))

/-- The fallback normalization with each maximal run of disallowed
characters collapsed to a single `_`, written as a state machine whose
flag records whether the previous character was part of a disallowed
run. -/
def runFallbackAux : List Char → Bool → List Char
  | [], _ => []
  | c :: cs, inRun =>
    if isAllowed c then c :: runFallbackAux cs false
    else if inRun then runFallbackAux cs true
    else '_' :: runFallbackAux cs true

/-- The install phase as the spec describes it: a fixed ordered list of
steps (environment creation, package-manager upgrade, the pinned
dependencies only when `requirements.txt` exists, editable install), each
carrying its success flag and its prefixed failure message. -/
def stepList (env : RepoEnv) : List (Ev × Bool × String) :=
  [(Ev.venvCreate, env.venvCmd.code == 0,
      "venv creation failed: " ++ diag env.venvCmd),
   (Ev.pipUpgradeEv, env.pipUpgrade.code == 0,
      "pip upgrade failed: " ++ diag env.pipUpgrade)]
  ++ (if hasFile env.tree "requirements.txt" then
        [(Ev.reqInstallEv, env.reqInstall.code == 0,
            "requirements install failed: " ++ diag env.reqInstall)]
      else [])
  ++ [(Ev.editableEv, env.editable.code == 0,
        "pip install -e . failed: " ++ diag env.editable)]

/-- Run an ordered step list: perform steps in order; the first failing
step aborts all remaining steps and its message becomes the failure
reason. -/
def runSteps : List (Ev × Bool × String) → (Bool × String) × List Ev
  | [] => ((true, ""), [])
  | (ev, ok, msg) :: rest =>
    if ok then
      let r := runSteps rest
      (r.1, ev :: r.2)
    else ((false, msg), [ev])

/-- A concrete environment whose clone succeeds but whose working tree has
no `pyproject.toml`. -/
def envNoManifest : RepoEnv :=
  { clone := ⟨0, "", ""⟩
    tree := ⟨[("README.md", "Install and Usage")]⟩
    venvCmd := ⟨0, "", ""⟩
    pipUpgrade := ⟨0, "", ""⟩
    reqInstall := ⟨0, "", ""⟩
    editable := ⟨0, "", ""⟩ }

/-- A concrete failing environment: the clone itself fails. -/
def envCloneFail : RepoEnv :=
  { clone := ⟨128, "", "fatal: repository not found"⟩
    tree := ⟨[]⟩
    venvCmd := ⟨0, "", ""⟩
    pipUpgrade := ⟨0, "", ""⟩
    reqInstall := ⟨0, "", ""⟩
    editable := ⟨0, "", ""⟩ }

/-! ## Helper lemmas -/

/-- A list's length splits into the elements satisfying a predicate and
those refuting it. -/
theorem length_eq_countP_add (p : RepoResult → Bool) (l : List RepoResult) :
    l.length = l.countP p + l.countP (fun a => !(p a)) := by
  induction l with
  | nil => simp
  | cons a t ih =>
    by_cases h : p a = true
    · simp [List.countP_cons, h, ih]
      omega
    · simp only [Bool.not_eq_true] at h
      simp [List.countP_cons, h, ih]
      omega

/-- The accumulator of `read_repo_list`'s loop distributes over the
filtered, trimmed tail. -/
theorem read_repo_list_loop (lines : List String) :
    ∀ acc : List String,
      lines.foldl
        (fun repos line =>
          if line.trim.isEmpty || line.trim.startsWith "#" then repos
          else repos ++ [line.trim])
        acc
      = acc ++ (lines.map String.trim).filter
          (fun l => !(l.isEmpty || l.startsWith "#")) := by
  induction lines with
  | nil => simp
  | cons line rest ih =>
    intro acc
    simp only [List.foldl_cons]
    by_cases h : (line.trim.isEmpty || line.trim.startsWith "#") = true
    · rw [if_pos h, ih acc, List.map_cons, List.filter_cons]
      simp [h]
    · rw [if_neg h, ih (acc ++ [line.trim]), List.map_cons, List.filter_cons]
      simp only [Bool.not_eq_true] at h
      simp [h]

/-- Every exit path of `verify_repo` is one of two shapes: the success
path (ok, reason `"ok"`, badge path set, the verified badge written) or a
failure path (not ok, no badge path, nothing written). -/
theorem verify_repo_shape (url : String) (env : RepoEnv) :
    ((verify_repo url env).result.ok = true
      ∧ (verify_repo url env).result.reason = "ok"
      ∧ (verify_repo url env).result.url = url
      ∧ (verify_repo url env).result.badge_path = some (slugFile url)
      ∧ (verify_repo url env).writes = [write_badge url true])
    ∨ ((verify_repo url env).result.ok = false
      ∧ (verify_repo url env).result.url = url
      ∧ (verify_repo url env).result.badge_path = none
      ∧ (verify_repo url env).writes = []) := by
  by_cases h1 : env.clone.code = 0
  case neg => right; simp [verify_repo, h1]
  case pos =>
  cases h2 : (ensure_pyproject env.tree).1 with
  | false => right; simp [verify_repo, h1, h2]
  | true =>
  cases hre : ensure_readme env.tree env.readmeExc with
  | error e => right; simp [verify_repo, h1, h2, hre]
  | ok r =>
  cases h3 : r.1 with
  | false => right; simp [verify_repo, h1, h2, hre, h3]
  | true =>
  cases h4 : (create_venv env.venvCmd).1 with
  | false => right; simp [verify_repo, h1, h2, hre, h3, h4]
  | true =>
  cases hexc : env.installExc with
  | some e => right; simp [verify_repo, h1, h2, hre, h3, h4, hexc]
  | none =>
  cases h5 : (install_editable env).1.1 with
  | false => right; simp [verify_repo, h1, h2, hre, h3, h4, hexc, h5]
  | true => left; simp [verify_repo, h1, h2, hre, h3, h4, hexc, h5, write_badge]

/-! ## Claims -/

/-- C3: for every list of `RepoResult`s, the aggregate payload's `passed`
equals the number of results with `ok = true`, `failed` holds exactly the
`(url, reason)` pairs of the results with `ok = false`, and
`total = passed + length failed`. -/
theorem claim_C3 (results : List RepoResult) :
    (resultsPayload results).passed
      = (results.filter (fun r => r.ok)).length
    ∧ (resultsPayload results).failed
      = (results.filter (fun r => !r.ok)).map (fun r => (r.url, r.reason))
    ∧ (resultsPayload results).total
      = (resultsPayload results).passed
        + (resultsPayload results).failed.length := by
  refine ⟨?_, rfl, ?_⟩
  · simp [resultsPayload, List.countP_eq_length_filter]
  · simp only [resultsPayload, List.length_map,
      List.countP_eq_length_filter]
    have h := length_eq_countP_add (fun r => r.ok) results
    simp only [List.countP_eq_length_filter] at h
    exact h

/-- C7: the repo-list reader returns exactly the trimmed lines that are
non-empty and not `#`-prefixed, in order, duplicates preserved, altered
only by trimming. -/
theorem claim_C7 (lines : List String) :
    read_repo_list lines
      = (lines.map String.trim).filter
          (fun l => !(l.isEmpty || l.startsWith "#")) := by
  unfold read_repo_list
  rw [read_repo_list_loop lines []]
  simp

/-- C1: each processed URL gets exactly one badge-file write, to that
URL's slug file, overwriting any prior store content; the badge message is
`"verified"` iff the result has `ok = true` and `reason = "ok"`, `"failed"`
iff `ok = false`; the color is `"brightgreen"` on success and `"red"` on
failure. -/
theorem claim_C1 (url : String) (env : RepoEnv) (store : BadgeStore) :
    (mainStep url env).2
      = [(slugFile url, badgePayload (mainStep url env).1.ok)]
    ∧ ((badgePayload (mainStep url env).1.ok).message = "verified"
        ↔ ((mainStep url env).1.ok = true
            ∧ (mainStep url env).1.reason = "ok"))
    ∧ ((badgePayload (mainStep url env).1.ok).message = "failed"
        ↔ (mainStep url env).1.ok = false)
    ∧ (badgePayload (mainStep url env).1.ok).color
        = (if (mainStep url env).1.ok then "brightgreen" else "red")
    ∧ applyWrites store (mainStep url env).2 (slugFile url)
        = some (badgePayload (mainStep url env).1.ok) := by
  rcases verify_repo_shape url env with
    ⟨hok, hreason, _, _, hw⟩ | ⟨hok, _, _, hw⟩
  · refine ⟨?_, ?_, ?_, ?_, ?_⟩ <;>
      simp [mainStep, hok, hreason, hw, write_badge, badgePayload,
        applyWrites, applyWrite]
  · refine ⟨?_, ?_, ?_, ?_, ?_⟩ <;>
      simp [mainStep, hok, hw, write_badge, badgePayload,
        applyWrites, applyWrite]

/-- C2: when the clone succeeded but `pyproject.toml` is absent at the
root, verification stops at the manifest check: the event trace is exactly
clone-then-manifest-check, so the README check and every install step are
never performed, and the result is the manifest failure. -/
theorem claim_C2 (url : String) (env : RepoEnv)
    (hclone : env.clone.code = 0)
    (hman : hasFile env.tree "pyproject.toml" = false) :
    (verify_repo url env).events = [Ev.clone, Ev.checkPyproject]
    ∧ Ev.checkReadme ∉ (verify_repo url env).events
    ∧ Ev.venvCreate ∉ (verify_repo url env).events
    ∧ Ev.pipUpgradeEv ∉ (verify_repo url env).events
    ∧ Ev.reqInstallEv ∉ (verify_repo url env).events
    ∧ Ev.editableEv ∉ (verify_repo url env).events
    ∧ (verify_repo url env).result
        = ⟨url, false, "missing pyproject.toml", none⟩ := by
  have hp : ensure_pyproject env.tree = (false, "missing pyproject.toml") := by
    simp [ensure_pyproject, hman]
  refine ⟨?_, ?_, ?_, ?_, ?_, ?_, ?_⟩ <;>
    simp [verify_repo, hclone, hp]

/-- Witness for C2 at a concrete environment. -/
theorem claim_C2_witness :
    (verify_repo "https://github.com/acme/widget" envNoManifest).events
      = [Ev.clone, Ev.checkPyproject]
    ∧ Ev.editableEv
        ∉ (verify_repo "https://github.com/acme/widget" envNoManifest).events :=
  ⟨(claim_C2 "https://github.com/acme/widget" envNoManifest (by decide)
      (by decide)).1,
   (claim_C2 "https://github.com/acme/widget" envNoManifest (by decide)
      (by decide)).2.2.2.2.2.1⟩

/-- C9: a `RepoResult` from `verify_repo` has a non-`none` `badge_path`
iff `ok = true`; on failure the driver writes the failed badge while the
result's `badge_path` stays `none`. -/
theorem claim_C9 (url : String) (env : RepoEnv) :
    ((verify_repo url env).result.badge_path.isSome = true
      ↔ (verify_repo url env).result.ok = true)
    ∧ ((verify_repo url env).result.ok = true →
        (verify_repo url env).result.badge_path = some (slugFile url))
    ∧ ((verify_repo url env).result.ok = false →
        (verify_repo url env).result.badge_path = none
        ∧ (mainStep url env).2 = [(slugFile url, badgePayload false)]) := by
  rcases verify_repo_shape url env with
    ⟨hok, _, _, hbp, hw⟩ | ⟨hok, _, hbp, hw⟩
  · refine ⟨?_, ?_, ?_⟩ <;> simp [mainStep, hok, hbp, hw]
  · refine ⟨?_, ?_, ?_⟩ <;> simp [mainStep, hok, hbp, hw, write_badge]

/-- Witness for C9 at a concrete failing environment. -/
theorem claim_C9_witness :
    (verify_repo "u" envCloneFail).result.badge_path = none
    ∧ (mainStep "u" envCloneFail).2
        = [(slugFile "u", badgePayload false)] :=
  (claim_C9 "u" envCloneFail).2.2 (by decide)

/-- C5: the README check fails when no root `README.md` exists; it fails
with reason `"README.md must include install and usage"` when the file
exists but its text, case-insensitively, does not contain both
`"install"` and `"usage"`; and it succeeds with an empty reason when both
are present in any case. -/
theorem claim_C5 (t : RepoTree) :
    (lookupFile t "README.md" = none →
      ensure_readme t none = .ok (false, "missing README.md"))
    ∧ (∀ text, lookupFile t "README.md" = some text →
        ((containsSub "install" (strLower text)
            && containsSub "usage" (strLower text)) = false →
          ensure_readme t none
            = .ok (false, "README.md must include install and usage"))
        ∧ ((containsSub "install" (strLower text)
            && containsSub "usage" (strLower text)) = true →
          ensure_readme t none = .ok (true, ""))) := by
  refine ⟨fun h => by simp [ensure_readme, h],
    fun text h => ⟨fun hc => ?_, fun hc => ?_⟩⟩
  · have hcond : (!(containsSub "install" (strLower text))
        || !(containsSub "usage" (strLower text))) = true := by
      rw [← Bool.not_and, hc]
      rfl
    simp [ensure_readme, h, hcond]
  · rw [Bool.and_eq_true] at hc
    simp [ensure_readme, h, hc.1, hc.2]

/-- Witness for C5: the three README outcomes at concrete trees. -/
theorem claim_C5_witness :
    ensure_readme ⟨[]⟩ none = .ok (false, "missing README.md")
    ∧ ensure_readme ⟨[("README.md", "How to Install it")]⟩ none
        = .ok (false, "README.md must include install and usage")
    ∧ ensure_readme ⟨[("README.md", "Install and Usage")]⟩ none
        = .ok (true, "") :=
  ⟨(claim_C5 ⟨[]⟩).1 (by decide),
   ((claim_C5 ⟨[("README.md", "How to Install it")]⟩).2
      "How to Install it" (by decide)).1 (by decide),
   ((claim_C5 ⟨[("README.md", "Install and Usage")]⟩).2
      "Install and Usage" (by decide)).2 (by decide)⟩

/-- C6: the install phase runs environment creation, pip upgrade, the
pinned-dependencies install (only when `requirements.txt` exists at the
root), then the editable install, in that fixed order; the first failing
step aborts the remaining steps and its prefixed diagnostic becomes the
failure reason.  Stated as: the code's install phase equals running the
spec's ordered step list with first-failure abort. -/
theorem claim_C6 (env : RepoEnv) :
    installPhase env = runSteps (stepList env) := by
  by_cases hv : env.venvCmd.code = 0
  · by_cases hp : env.pipUpgrade.code = 0
    · by_cases hr : hasFile env.tree "requirements.txt" = true
      · by_cases hq : env.reqInstall.code = 0
        · by_cases he : env.editable.code = 0
          · simp [installPhase, create_venv, install_editable, stepList,
              runSteps, hv, hp, hr, hq, he]
          · simp [installPhase, create_venv, install_editable, stepList,
              runSteps, hv, hp, hr, hq, he]
        · simp [installPhase, create_venv, install_editable, stepList,
            runSteps, hv, hp, hr, hq]
      · by_cases he : env.editable.code = 0
        · simp [installPhase, create_venv, install_editable, stepList,
            runSteps, hv, hp, hr, he]
        · simp [installPhase, create_venv, install_editable, stepList,
            runSteps, hv, hp, hr, he]
    · simp [installPhase, create_venv, install_editable, stepList,
        runSteps, hv, hp]
  · simp [installPhase, create_venv, stepList, runSteps, hv]

/-- C10: the convention checks use the fixed concrete file names — the
manifest check succeeds iff a root file named exactly `pyproject.toml`
exists (otherwise the reason is `"missing pyproject.toml"`, and no other
single file name satisfies it); the README check depends only on the file
named exactly `README.md` (a tree with any other single name behaves as
missing); and the pinned-dependencies step is guarded exactly by the
presence of `requirements.txt`. -/
theorem claim_C10 :
    (∀ t : RepoTree,
      ((ensure_pyproject t).1 = true ↔ hasFile t "pyproject.toml" = true)
      ∧ ((ensure_pyproject t).1 = false →
          (ensure_pyproject t).2 = "missing pyproject.toml"))
    ∧ (∀ n c, n ≠ "pyproject.toml" →
        (ensure_pyproject ⟨[(n, c)]⟩).1 = false)
    ∧ (∀ t₁ t₂ e, lookupFile t₁ "README.md" = lookupFile t₂ "README.md" →
        ensure_readme t₁ e = ensure_readme t₂ e)
    ∧ (∀ n c, n ≠ "README.md" →
        ensure_readme ⟨[(n, c)]⟩ none = .ok (false, "missing README.md"))
    ∧ (∀ env : RepoEnv, env.pipUpgrade.code = 0 →
        (Ev.reqInstallEv ∈ (install_editable env).2
          ↔ hasFile env.tree "requirements.txt" = true)) := by
  refine ⟨fun t => ⟨?_, ?_⟩, fun n c hn => ?_, fun t₁ t₂ e h => ?_,
    fun n c hn => ?_, fun env hp => ?_⟩
  · by_cases h : hasFile t "pyproject.toml" = true <;>
      simp [ensure_pyproject, h]
  · by_cases h : hasFile t "pyproject.toml" = true <;>
      simp [ensure_pyproject, h]
  · simp [ensure_pyproject, hasFile, hn]
  · simp only [ensure_readme, h]
  · have hb : (n == "README.md") = false := by
      simp [hn]
    have hl : lookupFile ⟨[(n, c)]⟩ "README.md" = none := by
      simp [lookupFile, List.find?, hb]
    simp [ensure_readme, hl]
  · by_cases hr : hasFile env.tree "requirements.txt" = true
    · by_cases hq : env.reqInstall.code = 0 <;>
        by_cases he : env.editable.code = 0 <;>
          simp [install_editable, hp, hr, hq, he]
    · by_cases he : env.editable.code = 0 <;>
        simp [install_editable, hp, hr, he]

/-- Witness for C10 at concrete trees and environments. -/
theorem claim_C10_witness :
    (ensure_pyproject ⟨[("setup.py", "")]⟩).1 = false
    ∧ ensure_readme ⟨[("README.rst", "install usage")]⟩ none
        = .ok (false, "missing README.md")
    ∧ (Ev.reqInstallEv ∈ (install_editable envNoManifest).2
        ↔ hasFile envNoManifest.tree "requirements.txt" = true) :=
  ⟨claim_C10.2.1 "setup.py" "" (by decide),
   claim_C10.2.2.2.1 "README.rst" "install usage" (by decide),
   claim_C10.2.2.2.2 envNoManifest (by decide)⟩

/-- C8: the process exit code is 0 iff every result has `ok = true`, and
it is 1 otherwise. -/
theorem claim_C8 (input : List (String × RepoEnv)) :
    (mainExit (processRepos input).1 = 0
      ↔ ∀ r ∈ (processRepos input).1, r.ok = true)
    ∧ (mainExit (processRepos input).1 = 1
      ↔ ¬ (∀ r ∈ (processRepos input).1, r.ok = true)) := by
  unfold mainExit
  by_cases h : (processRepos input).1.all (fun r => r.ok) = true
  · rw [List.all_eq_true] at h
    simp only [List.all_eq_true] at *
    constructor
    · simp [h]
    · simp [h]
  · have h' := h
    rw [List.all_eq_true] at h'
    simp only [List.all_eq_true] at *
    constructor
    · simp [h, h']
    · simp [h, h']

/-! ## Slug normalization (C4) -/

/-- The run-collapsing fallback agrees with the code's `subRuns`; proved by
strong induction on the list length. -/
theorem runFallback_subRuns (n : Nat) :
    ∀ l : List Char, l.length ≤ n →
      runFallbackAux l false = subRuns l
      ∧ runFallbackAux l true
          = subRuns (l.dropWhile (fun d => !(isAllowed d))) := by
  induction n with
  | zero =>
    intro l hl
    have hnil : l = [] := List.eq_nil_of_length_eq_zero (Nat.le_zero.mp hl)
    subst hnil
    simp [runFallbackAux, subRuns, List.dropWhile]
  | succ n ih =>
    intro l hl
    match l with
    | [] => simp [runFallbackAux, subRuns, List.dropWhile]
    | c :: cs =>
      have hcs : cs.length ≤ n := by
        simp only [List.length_cons] at hl
        omega
      by_cases hc : isAllowed c = true
      · constructor
        · simp [runFallbackAux, subRuns, hc, (ih cs hcs).1]
        · simp [runFallbackAux, subRuns, List.dropWhile, hc, (ih cs hcs).1]
      · simp only [Bool.not_eq_true] at hc
        constructor
        · simp [runFallbackAux, subRuns, hc, (ih cs hcs).2]
        · simp [runFallbackAux, subRuns, List.dropWhile, hc, (ih cs hcs).2]

/-- The code's fallback substitution equals the run-collapsing state
machine started outside a run. -/
theorem subRuns_eq_runFallback (l : List Char) :
    subRuns l = runFallbackAux l false :=
  ((runFallback_subRuns l.length l le_rfl).1).symm

/-- Scanning past a character that cannot start the `github.com/`
literal. -/
theorem findMatch_cons_ne (c : Char) (l : List Char) (h : c ≠ 'g') :
    findMatch (c :: l) = findMatch l := by
  have hgc : ('g' == c) = false := beq_eq_false_iff_ne.mpr (Ne.symm h)
  simp [findMatch, tryAt, ghPat, List.isPrefixOf, hgc]

/-- The characters before the first slash, for a slash-free head. -/
theorem takeWhile_append_slash (o t : List Char) (h : '/' ∉ o) :
    (o ++ '/' :: t).takeWhile (fun c => c ≠ '/') = o := by
  induction o with
  | nil => simp [List.takeWhile]
  | cons a as ih =>
    have ha : a ≠ '/' := by
      intro e
      exact h (by simp [e])
    have h' : '/' ∉ as := fun m => h (List.mem_cons_of_mem _ m)
    simpa [List.takeWhile, ha] using ih h'

/-- The characters from the first slash on, for a slash-free head. -/
theorem dropWhile_append_slash (o t : List Char) (h : '/' ∉ o) :
    (o ++ '/' :: t).dropWhile (fun c => c ≠ '/') = '/' :: t := by
  induction o with
  | nil => simp [List.dropWhile]
  | cons a as ih =>
    have ha : a ≠ '/' := by
      intro e
      exact h (by simp [e])
    have h' : '/' ∉ as := fun m => h (List.mem_cons_of_mem _ m)
    simpa [List.dropWhile, ha] using ih h'

/-- A successful match attempt right at the `github.com/` literal. -/
theorem tryAt_match (o t : List Char) (ho : o ≠ []) (hos : '/' ∉ o)
    (ht : t ≠ []) (hts : '/' ∉ t) :
    tryAt (ghPat ++ (o ++ '/' :: t)) = some (o, stripGit t) := by
  have hpre : ghPat.isPrefixOf (ghPat ++ (o ++ '/' :: t)) = true := by
    rw [List.isPrefixOf_iff_prefix]
    exact List.prefix_append _ _
  have hdrop : (ghPat ++ (o ++ '/' :: t)).drop 11 = o ++ '/' :: t := by
    have hlen : (11 : Nat) = ghPat.length := rfl
    rw [hlen, List.drop_left]
  unfold tryAt
  rw [hpre]
  simp only [if_true]
  rw [hdrop, takeWhile_append_slash o t hos, dropWhile_append_slash o t hos]
  simp [ho, ht, hts]

/-- The leftmost-scan search succeeds at the head of a `github.com/`-led
remainder. -/
theorem findMatch_at_head (o t : List Char) (ho : o ≠ []) (hos : '/' ∉ o)
    (ht : t ≠ []) (hts : '/' ∉ t) :
    findMatch (ghPat ++ (o ++ '/' :: t)) = some (o, stripGit t) := by
  have e : findMatch (ghPat ++ (o ++ '/' :: t))
      = match tryAt (ghPat ++ (o ++ '/' :: t)) with
        | some r => some r
        | none =>
          findMatch (['i', 't', 'h', 'u', 'b', '.', 'c', 'o', 'm', '/']
            ++ (o ++ '/' :: t)) := rfl
  rw [e, tryAt_match o t ho hos ht hts]

/-- The search over a full `https://github.com/owner/name` URL. -/
theorem findMatch_https (o t : List Char) (ho : o ≠ []) (hos : '/' ∉ o)
    (ht : t ≠ []) (hts : '/' ∉ t) :
    findMatch ("https://".toList ++ (ghPat ++ (o ++ '/' :: t)))
      = some (o, stripGit t) := by
  have hs : "https://".toList = ['h', 't', 't', 'p', 's', ':', '/', '/'] := rfl
  rw [hs]
  simp only [List.cons_append, List.nil_append]
  rw [findMatch_cons_ne 'h' _ (by decide), findMatch_cons_ne 't' _ (by decide),
    findMatch_cons_ne 't' _ (by decide), findMatch_cons_ne 'p' _ (by decide),
    findMatch_cons_ne 's' _ (by decide), findMatch_cons_ne ':' _ (by decide),
    findMatch_cons_ne '/' _ (by decide), findMatch_cons_ne '/' _ (by decide)]
  exact findMatch_at_head o t ho hos ht hts

/-- C4 counterexample: at the non-matching URL `"!!"` the code collapses
the run of two disallowed characters into one underscore, while the claim
as stated predicts one replacement character per disallowed input
character, i.e. `"__"`. -/
theorem claim_C4_counterexample :
    findMatch "!!".toList = none
    ∧ normalize_repo_slug "!!" = "_"
    ∧ perCharFallback "!!" = "__" := by
  have h : findMatch "!!".toList = none := by decide
  refine ⟨h, ?_, by decide⟩
  simp only [normalize_repo_slug, h]
  rw [subRuns_eq_runFallback]
  decide

/-- C4 (amended): for URLs of the recognized `https://github.com/owner/name`
shape (owner and name non-empty and slash-free) the slug is
`owner ++ "__" ++ name` with one trailing `.git` stripped from the name;
for every URL the pattern does not match, the slug replaces each maximal
run of characters outside `[A-Za-z0-9._-]` by a single `_`. -/
theorem claim_C4_amended :
    (∀ owner rn : String,
        owner.toList ≠ [] → rn.toList ≠ [] →
        '/' ∉ owner.toList → '/' ∉ rn.toList →
        normalize_repo_slug ("https://github.com/" ++ owner ++ "/" ++ rn)
          = owner ++ "__" ++ String.mk (stripGit rn.toList))
    ∧ (∀ url : String, findMatch url.toList = none →
        normalize_repo_slug url
          = String.mk (runFallbackAux url.toList false)) := by
  constructor
  · intro owner rn ho hr hos hrs
    have e1 : ("https://github.com/" ++ owner ++ "/" ++ rn).toList
        = "https://github.com/".toList ++ owner.toList
            ++ "/".toList ++ rn.toList := rfl
    have e2 : "https://github.com/".toList = "https://".toList ++ ghPat := rfl
    have e3 : "/".toList = ['/'] := rfl
    have hsplit : ("https://github.com/" ++ owner ++ "/" ++ rn).toList
        = "https://".toList ++ (ghPat ++ (owner.toList ++ '/' :: rn.toList)) := by
      rw [e1, e2, e3]
      simp [List.append_assoc]
    unfold normalize_repo_slug
    rw [hsplit, findMatch_https owner.toList rn.toList ho hos hr hrs]
    rfl
  · intro url h
    simp only [normalize_repo_slug, h]
    rw [subRuns_eq_runFallback]

/-- Witness for the amended C4 at concrete URLs, one per branch. -/
theorem claim_C4_witness :
    normalize_repo_slug ("https://github.com/" ++ "acme" ++ "/" ++ "widget.git")
      = "acme__widget"
    ∧ normalize_repo_slug "a  b"
        = String.mk (runFallbackAux "a  b".toList false) := by
  constructor
  · have h := claim_C4_amended.1 "acme" "widget.git" (by decide) (by decide)
      (by decide) (by decide)
    rw [h]
    decide
  · exact claim_C4_amended.2 "a  b" (by decide)

end VerifyRepos
